import Mathlib

/-
Verification of the window-session core of the `bea_egui` (tardy) crate.

Shallow embedding conventions:
* Rust code that can panic (empty `gen_range` ranges, `unwrap`, u32
  underflow under overflow checks, out-of-bounds `Vec` indexing) is
  modelled with the `RunResult` type: `.panic` is an abort, `.ok v`
  a normal return.
* `rand::Rng::gen_range(lo..hi)` is modelled nondeterministically: an
  extra `sample : Nat` argument selects which element of `[lo, hi)` is
  produced, so quantifying over `sample` quantifies over every possible
  outcome of the sampling.  An empty range panics, as in `rand`.
* u32 subtraction is modelled with overflow checks enabled (panic on
  underflow), the semantics of the crate's dev profile; overflow is a
  program error in Rust in either profile.
* `HashMap` is modelled as an association list with unique keys,
  insert-replace and remove-if-present semantics.
* OS effects (window creation, monitor enumeration, key events) enter as
  explicit parameters.
-/

namespace Tardy

/-- Outcome of running a piece of Rust code that may panic. -/
inductive RunResult (α : Type) where
  | panic : RunResult α
  | ok : α → RunResult α
deriving DecidableEq, Repr

/-- Embedding of `rand::Rng::gen_range(lo..hi)`: panics on an empty
range, otherwise returns some element of `[lo, hi)` selected by the
nondeterminism oracle `sample`. -/
def gen_range (lo hi sample : Nat) : RunResult Nat :=
  if lo < hi then .ok (lo + sample % (hi - lo)) else .panic

/-- Embedding of u32 subtraction `a - b` with overflow checks: panics on
underflow. -/
def sub_u32 (a b : Nat) : RunResult Nat :=
  if b ≤ a then .ok (a - b) else .panic

/-- The `MIN_SPAN` constant: minimum window dimension and margin
(src/app.rs). -/
def MIN_SPAN : Nat := 50

/-- Embedding of `dpi::PhysicalSize<u32>`. -/
structure PhysicalSize where
  width : Nat
  height : Nat
deriving DecidableEq, Repr

/-- Embedding of `dpi::PhysicalPosition<u32>`. -/
structure PhysicalPosition where
  x : Nat
  y : Nat
deriving DecidableEq, Repr

/-- Embedding of `monitor::MonitorHandle`: the only observation the core
makes of a monitor is its physical size. -/
structure MonitorHandle where
  size : PhysicalSize
deriving DecidableEq, Repr

/-- The `Frame` struct (src/app.rs): target monitor, anchor position and
size for a new window. -/
structure Frame where
  monitor : MonitorHandle
  position : PhysicalPosition
  size : PhysicalSize
deriving DecidableEq, Repr

/-- Embedding of `impl From<monitor::MonitorHandle> for Frame`
(src/app.rs).  The four `sample` arguments are the nondeterminism
oracles of the four `gen_range` calls, in source order: width, height,
x, y. -/
def Frame.ofMonitor (monitor : MonitorHandle) (s1 s2 s3 s4 : Nat) :
    RunResult Frame :=
  match sub_u32 monitor.size.width MIN_SPAN with
  | .panic => .panic
  | .ok wHi =>
    match gen_range MIN_SPAN wHi s1 with
    | .panic => .panic
    | .ok width =>
      match sub_u32 monitor.size.height MIN_SPAN with
      | .panic => .panic
      | .ok hHi =>
        match gen_range MIN_SPAN hHi s2 with
        | .panic => .panic
        | .ok height =>
          match sub_u32 monitor.size.width width with
          | .panic => .panic
          | .ok clip_x =>
            match sub_u32 monitor.size.height height with
            | .panic => .panic
            | .ok clip_y =>
              match gen_range MIN_SPAN clip_x s3 with
              | .panic => .panic
              | .ok x =>
                match gen_range MIN_SPAN clip_y s4 with
                | .panic => .panic
                | .ok y => .ok ⟨monitor, ⟨x, y⟩, ⟨width, height⟩⟩

lemma gen_range_eq_ok {lo hi s v : Nat} (h : gen_range lo hi s = .ok v) :
    lo ≤ v ∧ v < hi := by
  unfold gen_range at h
  split at h
  · next hlt =>
    cases h
    constructor
    · exact Nat.le_add_right lo _
    · have hmod : s % (hi - lo) < hi - lo := Nat.mod_lt _ (by omega)
      omega
  · exact (RunResult.noConfusion h)

lemma sub_u32_eq_ok {a b v : Nat} (h : sub_u32 a b = .ok v) :
    b ≤ a ∧ v = a - b := by
  unfold sub_u32 at h
  split at h
  · next hle => cases h; exact ⟨hle, rfl⟩
  · exact (RunResult.noConfusion h)

/-- Association-list lookup, the embedding of `HashMap::get` (first
match wins; keys are unique in every map the program builds). -/
def assocGet {κ ν : Type} [DecidableEq κ] : List (κ × ν) → κ → Option ν
  | [], _ => none
  | (k', v) :: rest, k => if k' = k then some v else assocGet rest k

/-- Association-list insert with replacement, the embedding of
`HashMap::insert`. -/
def assocInsert {κ ν : Type} [DecidableEq κ] (k : κ) (v : ν) :
    List (κ × ν) → List (κ × ν)
  | [] => [(k, v)]
  | (k', v') :: rest =>
    if k' = k then (k, v) :: rest else (k', v') :: assocInsert k v rest

/-- Association-list removal, the embedding of `HashMap::remove`
(removes the entry for the key if present). -/
def assocRemove {κ ν : Type} [DecidableEq κ] (k : κ) :
    List (κ × ν) → List (κ × ν)
  | [] => []
  | (k', v') :: rest =>
    if k' = k then rest else (k', v') :: assocRemove k rest

lemma assocGet_mem {κ ν : Type} [DecidableEq κ] {l : List (κ × ν)}
    {k : κ} {v : ν} (h : assocGet l k = some v) : (k, v) ∈ l := by
  induction l with
  | nil => exact (Option.noConfusion h)
  | cons p rest ih =>
    obtain ⟨k', v'⟩ := p
    unfold assocGet at h
    split at h
    · next heq => cases h; cases heq; exact List.mem_cons_self _ _
    · exact List.mem_cons_of_mem _ (ih h)

lemma mem_assocInsert {κ ν : Type} [DecidableEq κ] {p : κ × ν} {k : κ}
    {v : ν} {l : List (κ × ν)} (h : p ∈ assocInsert k v l) :
    p = (k, v) ∨ p ∈ l := by
  induction l with
  | nil =>
    unfold assocInsert at h
    rcases List.mem_singleton.mp h with rfl
    exact Or.inl rfl
  | cons q rest ih =>
    obtain ⟨k', v'⟩ := q
    unfold assocInsert at h
    split at h
    · rcases List.mem_cons.mp h with rfl | h
      · exact Or.inl rfl
      · exact Or.inr (List.mem_cons_of_mem _ h)
    · rcases List.mem_cons.mp h with rfl | h
      · exact Or.inr (List.mem_cons_self _ _)
      · rcases ih h with h | h
        · exact Or.inl h
        · exact Or.inr (List.mem_cons_of_mem _ h)

lemma mem_assocRemove {κ ν : Type} [DecidableEq κ] {p : κ × ν} {k : κ}
    {l : List (κ × ν)} (h : p ∈ assocRemove k l) : p ∈ l := by
  induction l with
  | nil => exact absurd h (List.not_mem_nil p)
  | cons q rest ih =>
    obtain ⟨k', v'⟩ := q
    unfold assocRemove at h
    split at h
    · exact List.mem_cons_of_mem _ h
    · rcases List.mem_cons.mp h with rfl | h
      · exact List.mem_cons_self _ _
      · exact List.mem_cons_of_mem _ (ih h)

lemma assocRemove_get_none {κ ν : Type} [DecidableEq κ] {l : List (κ × ν)}
    {k : κ} (h : assocGet l k = none) : assocRemove k l = l := by
  induction l with
  | nil => rfl
  | cons q rest ih =>
    obtain ⟨k', v'⟩ := q
    unfold assocGet at h
    unfold assocRemove
    split at h
    · exact (Option.noConfusion h)
    · next hne => rw [if_neg hne, ih h]

/-- The `Act` enum (src/act.rs): the closed set of user intents.
Constructor order matches the declaration order, which is also the
iteration order of the derived `strum` iterator. -/
inductive Act where
  | CloseWindow
  | Exit
  | NewWindow
  | Be
deriving DecidableEq, Repr

/-- Embedding of `Act::snake`: the snake-case form of each variant name
produced by `convert_case` from the `derive_more::Display` output. -/
def Act.snake : Act → String
  | .CloseWindow => "close_window"
  | .Exit => "exit"
  | .NewWindow => "new_window"
  | .Be => "be"

/-- Embedding of `Act::iter()` from the derived `strum` iterator:
variants in declaration order. -/
def Act.iterList : List Act := [.CloseWindow, .Exit, .NewWindow, .Be]

/-- Embedding of `winit::keyboard::Key` as observed by `Cmd::act`:
`named` carries the debug-format name of the named key (for example
"Escape"), `character` the character string, and `other` covers the
remaining variants. -/
inductive Key where
  | named (dbg : String)
  | character (s : String)
  | other
deriving DecidableEq, Repr

/-- Embedding of `winit::event::KeyEvent` as observed by the core:
the logical key and whether `state.is_pressed()` holds. -/
structure KeyEvent where
  logical_key : Key
  pressed : Bool
deriving DecidableEq, Repr

/-- The `Cmd` struct (src/cmd.rs): a map from trigger key strings to
`Act` values. -/
structure Cmd where
  map : List (String × Act)
deriving DecidableEq, Repr

/-- Embedding of `Cmd::act` (src/cmd.rs): resolve a key event to an
action.  Named keys look up their debug-format name, character keys the
character itself, and any other key resolves to nothing. -/
def Cmd.act (c : Cmd) (event : KeyEvent) : Option Act :=
  match event.logical_key with
  | .named k => assocGet c.map k
  | .character k => assocGet c.map k
  | .other => none

/-- Embedding of `config::Value` as observed by `Cmd::from`: kinds that
`into_string` converts successfully are represented by `vString` of the
resulting text; `vTable` and `vArray` are the kinds whose conversion
fails, making the `unwrap` in `Cmd::from` panic. -/
inductive CValue where
  | vString (s : String)
  | vTable
  | vArray
deriving DecidableEq, Repr

/-- Embedding of `config::Value::into_string` as a partial operation:
`none` is the conversion error that `Cmd::from` unwraps. -/
def CValue.intoString : CValue → Option String
  | .vString s => some s
  | .vTable => none
  | .vArray => none

/-- A built `config::Config` cache table: flat string keys to values. -/
def ConfigTable : Type := List (String × CValue)

/-- The loop body chain of `impl From<&config::Config> for Cmd`
(src/cmd.rs): fold over the remaining `Act` variants, inserting
`value -> variant` whenever the variant's snake-case name is a key of
the config table; a value that fails `into_string` panics via
`unwrap`. -/
def cmdFromFold (table : List (String × CValue)) :
    List Act → List (String × Act) → RunResult (List (String × Act))
  | [], cmds => .ok cmds
  | a :: rest, cmds =>
    match assocGet table a.snake with
    | none => cmdFromFold table rest cmds
    | some entry =>
      match entry.intoString with
      | some value => cmdFromFold table rest (assocInsert value a cmds)
      | none => .panic

/-- Embedding of `impl From<&config::Config> for Cmd` (src/cmd.rs). -/
def cmdFrom (table : List (String × CValue)) : RunResult Cmd :=
  match cmdFromFold table Act.iterList [] with
  | .ok m => .ok ⟨m⟩
  | .panic => .panic

/-- The fallback configuration built by `App::load_config` when the
config source fails to build (src/app.rs): `set_default("exit",
"Escape")` then `set_default("new_window", "n")`. -/
def defaultConfig : List (String × CValue) :=
  [("exit", .vString "Escape"), ("new_window", .vString "n")]

/-- Embedding of `winit::window::WindowId`: opaque, modelled as Nat. -/
abbrev WindowId : Type := Nat

/-- The `Lens` struct (src/lens.rs): per-window state.  The window
handle is opaque and modelled by its id. -/
structure Lens where
  refresh : Bool
  window : Nat
deriving DecidableEq, Repr

/-- Embedding of `Lens::new` (src/lens.rs): `refresh` starts false. -/
def Lens.new (window : Nat) : Lens :=
  { refresh := false, window := window }

/-- The error enum `Blame` (src/arrive.rs), restricted to the variants
the modelled operations can produce. -/
inductive Blame where
  | OsError
deriving DecidableEq, Repr

/-- The `App` struct (src/app.rs): key command table, loaded config and
the window table.  The event-loop proxy carries no modelled state. -/
structure App where
  cmd : Cmd
  config : List (String × CValue)
  windows : List (Nat × Lens)
deriving DecidableEq, Repr

/-- Outcome of the OS call `ActiveEventLoop::create_window`: either a
fresh window (identified by its id) or an OS error. -/
inductive CreateWindowResult where
  | success (id : Nat)
  | failure
deriving DecidableEq, Repr

/-- Embedding of `App::create_window` (src/app.rs): ask the OS for a
window and insert a fresh `Lens` keyed by the window id.  On OS failure
the error propagates and the table is untouched. -/
def App.create_window (app : App) (env : CreateWindowResult) :
    Except Blame Unit × App :=
  match env with
  | .failure => (.error .OsError, app)
  | .success id =>
    (.ok (), { app with windows := assocInsert id (Lens.new id) app.windows })

/-- Embedding of `App::load_config` (src/app.rs): `fileResult` is the
outcome of building the config source from file; on failure the fixed
default table is installed. -/
def App.load_config (app : App) (fileResult : Option (List (String × CValue))) :
    App :=
  match fileResult with
  | some config => { app with config := config }
  | none => { app with config := defaultConfig }

/-- Embedding of `App::act` (src/app.rs): dispatch on the `Act`
variant. -/
def App.act (app : App) (act : Act) (id : Nat) (env : CreateWindowResult) :
    Except Blame Unit × App :=
  match act with
  | .CloseWindow => (.ok (), { app with windows := assocRemove id app.windows })
  | .Exit => (.ok (), { app with windows := [] })
  | .NewWindow => App.create_window app env
  | .Be => (.ok (), app)

/-- Embedding of `App::keyboard_input` (src/app.rs): dispatch only on
press; unresolved keys fall through to `Ok`. -/
def App.keyboard_input (app : App) (id : Nat) (event : KeyEvent)
    (env : CreateWindowResult) : Except Blame Unit × App :=
  if event.pressed then
    match Cmd.act app.cmd event with
    | some act => App.act app act id env
    | none => (.ok (), app)
  else (.ok (), app)

/-- Embedding of `winit::event::WindowEvent` as observed by
`App::window_event`: the handled variants plus a catch-all. -/
inductive WindowEvent where
  | CloseRequested
  | KeyboardInput (event : KeyEvent) (isSynthetic : Bool)
  | RedrawRequested
  | Other
deriving DecidableEq, Repr

/-- Embedding of `App::window_event` (src/app.rs): events for unknown
windows return early; `CloseRequested` removes the window;
non-synthetic `KeyboardInput` dispatches (errors are logged and
dropped); `RedrawRequested` calls `request_redraw` and clears the flag
only when `refresh` is set.  The boolean output records whether
`request_redraw` was called. -/
def App.window_event (app : App) (id : Nat) (ev : WindowEvent)
    (env : CreateWindowResult) : App × Bool :=
  match assocGet app.windows id with
  | none => (app, false)
  | some lens =>
    match ev with
    | .CloseRequested =>
      ({ app with windows := assocRemove id app.windows }, false)
    | .KeyboardInput event isSynthetic =>
      if isSynthetic then (app, false)
      else ((App.keyboard_input app id event env).2, false)
    | .RedrawRequested =>
      if lens.refresh then
        ({ app with
            windows := assocInsert id { lens with refresh := false }
              app.windows },
          true)
      else (app, false)
    | .Other => (app, false)

/-- A sequence of `App::create_window` calls, one per OS outcome. -/
def createMany (app : App) : List CreateWindowResult → App
  | [] => app
  | env :: rest => createMany (App.create_window app env).2 rest

/-- Embedding of `App::lenses` (src/app.rs): the open windows' views,
or `None` when the table is empty. -/
def App.lenses (app : App) : Option (List Lens) :=
  if app.windows.isEmpty then none
  else some (app.windows.map (fun p => p.2))

/-- Embedding of `App::monitors` (src/app.rs): enumerate monitors
through any open window.  The OS's enumeration is the `avail`
parameter; with no open window the result is `None`. -/
def App.monitors (app : App) (avail : List MonitorHandle) :
    Option (List MonitorHandle) :=
  match App.lenses app with
  | some _ => some avail
  | none => none

/-- The sampling loop of `App::random_monitors` (src/app.rs): draw
`count` indexes with `gen_range(0..monitors.len())` and index into the
monitor vector; the oracle `samples i` drives the i-th draw. -/
def pickMonitors (monitors : List MonitorHandle) (samples : Nat → Nat) :
    Nat → RunResult (List MonitorHandle)
  | 0 => .ok []
  | count + 1 =>
    match gen_range 0 monitors.length (samples 0) with
    | .panic => .panic
    | .ok idx =>
      match monitors.get? idx with
      | none => .panic
      | some m =>
        match pickMonitors monitors (fun i => samples (i + 1)) count with
        | .panic => .panic
        | .ok rest => .ok (m :: rest)

/-- Embedding of `App::random_monitors` (src/app.rs). -/
def App.random_monitors (app : App) (avail : List MonitorHandle)
    (count : Nat) (samples : Nat → Nat) :
    RunResult (Option (List MonitorHandle)) :=
  match App.monitors app avail with
  | none => .ok none
  | some monitors =>
    match pickMonitors monitors samples count with
    | .panic => .panic
    | .ok handles => .ok (some handles)

/-- The mapping step of `App::frames`: build a `Frame` from each
selected monitor; `fs i` supplies the four sampling oracles of the
i-th `Frame::from` call. -/
def framesMap (fs : Nat → Nat × Nat × Nat × Nat) :
    List MonitorHandle → RunResult (List Frame)
  | [] => .ok []
  | m :: rest =>
    match Frame.ofMonitor m (fs 0).1 (fs 0).2.1 (fs 0).2.2.1 (fs 0).2.2.2 with
    | .panic => .panic
    | .ok f =>
      match framesMap (fun i => fs (i + 1)) rest with
      | .panic => .panic
      | .ok tail => .ok (f :: tail)

/-- Embedding of `App::frames` (src/app.rs). -/
def App.frames (app : App) (avail : List MonitorHandle) (count : Nat)
    (samples : Nat → Nat) (fs : Nat → Nat × Nat × Nat × Nat) :
    RunResult (Option (List Frame)) :=
  match App.random_monitors app avail count samples with
  | .panic => .panic
  | .ok none => .ok none
  | .ok (some monitors) =>
    match framesMap fs monitors with
    | .panic => .panic
    | .ok frames => .ok (some frames)

/-- C1: for every monitor whose width and height both exceed
`2 * MIN_SPAN`, every `Frame` constructed by
`From<monitor::MonitorHandle> for Frame` satisfies
`position.x + size.width <= monitor.width`,
`position.y + size.height <= monitor.height`, and both dimensions are
at least `MIN_SPAN`, for every outcome of the random sampling. -/
theorem frame_ofMonitor_in_bounds (m : MonitorHandle) (s1 s2 s3 s4 : Nat)
    (_hw : 2 * MIN_SPAN < m.size.width) (_hh : 2 * MIN_SPAN < m.size.height)
    (f : Frame) (hf : Frame.ofMonitor m s1 s2 s3 s4 = .ok f) :
    f.position.x + f.size.width ≤ m.size.width ∧
    f.position.y + f.size.height ≤ m.size.height ∧
    MIN_SPAN ≤ f.size.width ∧ MIN_SPAN ≤ f.size.height := by
  unfold Frame.ofMonitor at hf
  split at hf
  · exact (RunResult.noConfusion hf)
  · next wHi h1 =>
    split at hf
    · exact (RunResult.noConfusion hf)
    · next width h2 =>
      split at hf
      · exact (RunResult.noConfusion hf)
      · next hHi h3 =>
        split at hf
        · exact (RunResult.noConfusion hf)
        · next height h4 =>
          split at hf
          · exact (RunResult.noConfusion hf)
          · next clip_x h5 =>
            split at hf
            · exact (RunResult.noConfusion hf)
            · next clip_y h6 =>
              split at hf
              · exact (RunResult.noConfusion hf)
              · next x h7 =>
                split at hf
                · exact (RunResult.noConfusion hf)
                · next y h8 =>
                  cases hf
                  obtain ⟨h1a, h1b⟩ := sub_u32_eq_ok h1
                  obtain ⟨h2a, h2b⟩ := gen_range_eq_ok h2
                  obtain ⟨h3a, h3b⟩ := sub_u32_eq_ok h3
                  obtain ⟨h4a, h4b⟩ := gen_range_eq_ok h4
                  obtain ⟨h5a, h5b⟩ := sub_u32_eq_ok h5
                  obtain ⟨h6a, h6b⟩ := sub_u32_eq_ok h6
                  obtain ⟨h7a, h7b⟩ := gen_range_eq_ok h7
                  obtain ⟨h8a, h8b⟩ := gen_range_eq_ok h8
                  refine ⟨?_, ?_, h2a, h4a⟩ <;> simp only [] <;> omega

/-- Witness for C1 at a concrete 200 by 200 monitor with all sampling
oracles zero. -/
theorem frame_ofMonitor_in_bounds_witness :
    (Frame.mk ⟨⟨200, 200⟩⟩ ⟨50, 50⟩ ⟨50, 50⟩).position.x +
        (Frame.mk ⟨⟨200, 200⟩⟩ ⟨50, 50⟩ ⟨50, 50⟩).size.width ≤ 200 ∧
    (Frame.mk ⟨⟨200, 200⟩⟩ ⟨50, 50⟩ ⟨50, 50⟩).position.y +
        (Frame.mk ⟨⟨200, 200⟩⟩ ⟨50, 50⟩ ⟨50, 50⟩).size.height ≤ 200 ∧
    MIN_SPAN ≤ (Frame.mk ⟨⟨200, 200⟩⟩ ⟨50, 50⟩ ⟨50, 50⟩).size.width ∧
    MIN_SPAN ≤ (Frame.mk ⟨⟨200, 200⟩⟩ ⟨50, 50⟩ ⟨50, 50⟩).size.height :=
  frame_ofMonitor_in_bounds ⟨⟨200, 200⟩⟩ 0 0 0 0 (by decide) (by decide)
    (Frame.mk ⟨⟨200, 200⟩⟩ ⟨50, 50⟩ ⟨50, 50⟩) (by decide)

/-- C4: for every monitor with `width <= 2 * MIN_SPAN` or
`height <= 2 * MIN_SPAN`, constructing a `Frame` from that monitor
panics (the empty sampling range aborts) for every sampling outcome; in
particular no clamped `Frame` is ever returned. -/
theorem frame_ofMonitor_small_monitor_panics (m : MonitorHandle)
    (s1 s2 s3 s4 : Nat)
    (h : m.size.width ≤ 2 * MIN_SPAN ∨ m.size.height ≤ 2 * MIN_SPAN) :
    Frame.ofMonitor m s1 s2 s3 s4 = .panic := by
  unfold Frame.ofMonitor
  split
  · rfl
  · next wHi h1 =>
    split
    · rfl
    · next width h2 =>
      split
      · rfl
      · next hHi h3 =>
        split
        · rfl
        · next height h4 =>
          obtain ⟨h1a, h1b⟩ := sub_u32_eq_ok h1
          obtain ⟨h2a, h2b⟩ := gen_range_eq_ok h2
          obtain ⟨h3a, h3b⟩ := sub_u32_eq_ok h3
          obtain ⟨h4a, h4b⟩ := gen_range_eq_ok h4
          have : False := by
            rcases h with h | h
            · have : MIN_SPAN = 50 := rfl
              omega
            · have : MIN_SPAN = 50 := rfl
              omega
          exact this.elim

/-- Witness for C4 at a concrete 100 by 300 monitor: the width is
exactly `2 * MIN_SPAN`, so construction panics. -/
theorem frame_ofMonitor_small_monitor_panics_witness :
    Frame.ofMonitor ⟨⟨100, 300⟩⟩ 0 0 0 0 = .panic :=
  frame_ofMonitor_small_monitor_panics ⟨⟨100, 300⟩⟩ 0 0 0 0
    (Or.inl (by decide))

/-- C3: for every key-binding table built on the fallback path of
`App::load_config` (config source fails to build) followed by
`Cmd::from`, the named key "Escape" resolves to `Exit` and the
character key "n" resolves to `NewWindow`. -/
theorem fallback_bindings (app : App) :
    ∃ c, cmdFrom (App.load_config app none).config = .ok c ∧
      Cmd.act c ⟨Key.named "Escape", true⟩ = some Act.Exit ∧
      Cmd.act c ⟨Key.character "n", true⟩ = some Act.NewWindow := by
  refine ⟨⟨[("Escape", .Exit), ("n", .NewWindow)]⟩, ?_, ?_, ?_⟩ <;> rfl

/-- C5: a configuration source that builds successfully with
`new_window = "x"` and no `exit` key yields a table where "x" resolves
to `NewWindow` and "Escape" resolves to nothing: missing keys are not
filled from the defaults. -/
theorem partial_config_no_default_fill :
    ∃ c, cmdFrom [("new_window", CValue.vString "x")] = .ok c ∧
      Cmd.act c ⟨Key.character "x", true⟩ = some Act.NewWindow ∧
      Cmd.act c ⟨Key.named "Escape", true⟩ = none := by
  refine ⟨⟨[("x", .NewWindow)]⟩, ?_, ?_, ?_⟩ <;> rfl

lemma cmdFromFold_panic_of_bad_value (table : List (String × CValue))
    (l : List Act) (cmds : List (String × Act)) (a : Act) (v : CValue)
    (ha : a ∈ l) (hget : assocGet table a.snake = some v)
    (hbad : v.intoString = none) :
    cmdFromFold table l cmds = .panic := by
  induction l generalizing cmds with
  | nil => exact absurd ha (List.not_mem_nil a)
  | cons b rest ih =>
    rcases List.mem_cons.mp ha with rfl | ha
    · simp only [cmdFromFold, hget, hbad]
    · cases hb : assocGet table b.snake with
      | none =>
        simp only [cmdFromFold, hb]
        exact ih _ ha
      | some entry =>
        cases he : entry.intoString with
        | none => simp only [cmdFromFold, hb, he]
        | some s =>
          simp only [cmdFromFold, hb, he]
          exact ih _ ha

/-- C10: if the configuration source builds successfully and contains a
key equal to some `Act` variant's snake-case name whose value cannot be
converted to a string, then `Cmd::from` panics via `unwrap` instead of
returning an error, skipping the entry, or falling back to defaults. -/
theorem cmdFrom_panics_on_unconvertible_value
    (table : List (String × CValue)) (a : Act) (v : CValue)
    (hget : assocGet table a.snake = some v)
    (hbad : v.intoString = none) :
    cmdFrom table = .panic := by
  have hmem : a ∈ Act.iterList := by cases a <;> decide
  have h := cmdFromFold_panic_of_bad_value table Act.iterList [] a v hmem
    hget hbad
  unfold cmdFrom
  rw [h]

/-- Witness for C10: a config whose `exit` entry is a table panics. -/
theorem cmdFrom_panics_on_unconvertible_value_witness :
    cmdFrom [("exit", CValue.vTable)] = .panic :=
  cmdFrom_panics_on_unconvertible_value [("exit", CValue.vTable)]
    Act.Exit CValue.vTable (by decide) (by decide)

/-- C6: `App::keyboard_input` applies an action only on a key press
(a release leaves the window table unchanged and returns Ok), and a
pressed key that resolves to no bound action also leaves the table
unchanged and returns Ok rather than an error. -/
theorem keyboard_input_press_only_and_unbound_ok (app : App) (id : Nat)
    (event : KeyEvent) (env : CreateWindowResult) :
    (event.pressed = false →
      App.keyboard_input app id event env = (.ok (), app)) ∧
    (event.pressed = true → Cmd.act app.cmd event = none →
      App.keyboard_input app id event env = (.ok (), app)) := by
  constructor
  · intro hrel
    unfold App.keyboard_input
    rw [hrel]
    rfl
  · intro hpress hnone
    unfold App.keyboard_input
    rw [hpress, hnone]
    rfl

/-- Witness for C6: a pressed, unbound key on a concrete state. -/
theorem keyboard_input_press_only_and_unbound_ok_witness :
    App.keyboard_input ⟨⟨[]⟩, [], [(1, ⟨false, 1⟩)]⟩ 1
        ⟨Key.character "q", true⟩ (.success 2) =
      (.ok (), ⟨⟨[]⟩, [], [(1, ⟨false, 1⟩)]⟩) :=
  (keyboard_input_press_only_and_unbound_ok ⟨⟨[]⟩, [], [(1, ⟨false, 1⟩)]⟩
    1 ⟨Key.character "q", true⟩ (.success 2)).2 rfl rfl

/-- C7: applying `Act::Exit` through `App::act` after any sequence of
`create_window` calls empties the window table unconditionally and
returns Ok. -/
theorem exit_clears_all_windows (app : App) (envs : List CreateWindowResult)
    (id : Nat) (env : CreateWindowResult) :
    (App.act (createMany app envs) Act.Exit id env).1 = .ok () ∧
    (App.act (createMany app envs) Act.Exit id env).2.windows = [] :=
  ⟨rfl, rfl⟩

/-- C8: applying `Act::CloseWindow` to a window identity absent from
the table returns Ok and leaves the state exactly unchanged. -/
theorem close_missing_window_ok (app : App) (id : Nat)
    (env : CreateWindowResult) (h : assocGet app.windows id = none) :
    App.act app Act.CloseWindow id env = (.ok (), app) := by
  unfold App.act
  rw [assocRemove_get_none h]

/-- Witness for C8: closing window 2 when only window 1 is open. -/
theorem close_missing_window_ok_witness :
    App.act ⟨⟨[]⟩, [], [(1, ⟨false, 1⟩)]⟩ Act.CloseWindow 2 (.success 0) =
      (.ok (), ⟨⟨[]⟩, [], [(1, ⟨false, 1⟩)]⟩) :=
  close_missing_window_ok ⟨⟨[]⟩, [], [(1, ⟨false, 1⟩)]⟩ 2 (.success 0) rfl

/-- States reachable by the application's operations, starting from the
empty window table that `App::new` builds. -/
inductive Reachable : App → Prop where
  | init (cmd : Cmd) (config : List (String × CValue)) :
      Reachable ⟨cmd, config, []⟩
  | create_window (app : App) (env : CreateWindowResult) :
      Reachable app → Reachable (App.create_window app env).2
  | act (app : App) (a : Act) (id : Nat) (env : CreateWindowResult) :
      Reachable app → Reachable (App.act app a id env).2
  | keyboard_input (app : App) (id : Nat) (event : KeyEvent)
      (env : CreateWindowResult) :
      Reachable app → Reachable (App.keyboard_input app id event env).2
  | window_event (app : App) (id : Nat) (ev : WindowEvent)
      (env : CreateWindowResult) :
      Reachable app → Reachable (App.window_event app id ev env).1

/-- Every `Lens` stored in the window table has `refresh = false`. -/
def refreshInv (app : App) : Prop :=
  ∀ p ∈ app.windows, p.2.refresh = false

lemma refreshInv_create_window {app : App} (env : CreateWindowResult)
    (h : refreshInv app) : refreshInv (App.create_window app env).2 := by
  cases env with
  | failure => exact h
  | success id =>
    intro p hp
    rcases mem_assocInsert hp with rfl | hp
    · rfl
    · exact h p hp

lemma refreshInv_act {app : App} (a : Act) (id : Nat)
    (env : CreateWindowResult) (h : refreshInv app) :
    refreshInv (App.act app a id env).2 := by
  cases a with
  | CloseWindow => exact fun p hp => h p (mem_assocRemove hp)
  | Exit => exact fun p hp => absurd hp (List.not_mem_nil p)
  | NewWindow => exact refreshInv_create_window env h
  | Be => exact h

lemma refreshInv_keyboard_input {app : App} (id : Nat) (event : KeyEvent)
    (env : CreateWindowResult) (h : refreshInv app) :
    refreshInv (App.keyboard_input app id event env).2 := by
  unfold App.keyboard_input
  split
  · cases hact : Cmd.act app.cmd event with
    | none => simpa using h
    | some a =>
      simp only [hact]
      exact refreshInv_act a id env h
  · exact h

lemma refreshInv_window_event {app : App} (id : Nat) (ev : WindowEvent)
    (env : CreateWindowResult) (h : refreshInv app) :
    refreshInv (App.window_event app id ev env).1 := by
  unfold App.window_event
  cases hget : assocGet app.windows id with
  | none => exact h
  | some lens =>
    cases ev with
    | CloseRequested => exact fun p hp => h p (mem_assocRemove hp)
    | KeyboardInput event isSynthetic =>
      cases isSynthetic with
      | true => exact h
      | false => exact refreshInv_keyboard_input id event env h
    | RedrawRequested =>
      by_cases hr : lens.refresh
      · simp only [hr, if_true]
        intro p hp
        rcases mem_assocInsert hp with rfl | hp
        · rfl
        · exact h p hp
      · simp only [hr, if_false]
        exact h
    | Other => exact h

lemma reachable_refreshInv {app : App} (h : Reachable app) :
    refreshInv app := by
  induction h with
  | init cmd config => exact fun p hp => absurd hp (List.not_mem_nil p)
  | create_window app env _ ih => exact refreshInv_create_window env ih
  | act app a id env _ ih => exact refreshInv_act a id env ih
  | keyboard_input app id event env _ ih =>
    exact refreshInv_keyboard_input id event env ih
  | window_event app id ev env _ ih =>
    exact refreshInv_window_event id ev env ih

/-- C9: in every reachable state, every `Lens` in the window table has
`refresh = false`, so the `RedrawRequested` arm of `App::window_event`
never calls `request_redraw`. -/
theorem reachable_refresh_false (app : App) (h : Reachable app) :
    refreshInv app ∧
    ∀ id env,
      (App.window_event app id WindowEvent.RedrawRequested env).2 = false := by
  have hinv := reachable_refreshInv h
  refine ⟨hinv, fun id env => ?_⟩
  unfold App.window_event
  cases hget : assocGet app.windows id with
  | none => rfl
  | some lens =>
    have hr : lens.refresh = false := hinv (id, lens) (assocGet_mem hget)
    simp [hr]

/-- Witness for C9: the state reached by creating one window from the
initial state. -/
theorem reachable_refresh_false_witness :
    refreshInv (App.create_window ⟨⟨[]⟩, [], []⟩ (.success 1)).2 ∧
    ∀ id env,
      (App.window_event (App.create_window ⟨⟨[]⟩, [], []⟩ (.success 1)).2
        id WindowEvent.RedrawRequested env).2 = false :=
  reachable_refresh_false (App.create_window ⟨⟨[]⟩, [], []⟩ (.success 1)).2
    (Reachable.create_window ⟨⟨[]⟩, [], []⟩ (.success 1)
      (Reachable.init ⟨[]⟩ []))

/-- C2, counterexample: with one window open and an empty monitor list,
`App::frames` at count 1 panics in the index sampling (`gen_range` on
an empty range) instead of returning the explicit `None` outcome the
claim requires for every count. -/
theorem frames_empty_monitor_list_cex :
    App.frames ⟨⟨[]⟩, [], [(2, ⟨false, 2⟩)]⟩ [] 1 (fun _ => 0)
        (fun _ => (0, 0, 0, 0)) = .panic ∧
    App.frames ⟨⟨[]⟩, [], [(2, ⟨false, 2⟩)]⟩ [] 1 (fun _ => 0)
        (fun _ => (0, 0, 0, 0)) ≠ .ok none := by
  constructor
  · rfl
  · intro h
    exact (RunResult.noConfusion h)

/-- C2 as amended: when at least one window is open but the enumerated
monitor list is empty, `App::frames` panics on the empty sampling range
for every count of at least 1, and returns `Some` of the empty frame
vector at count 0; the explicit `None` outcome arises only when no
window is open. -/
theorem frames_empty_monitor_list (app : App) (count : Nat)
    (samples : Nat → Nat) (fs : Nat → Nat × Nat × Nat × Nat)
    (hw : app.windows ≠ []) :
    (1 ≤ count → App.frames app [] count samples fs = .panic) ∧
    App.frames app [] 0 samples fs = .ok (some []) ∧
    (app.windows = [] → False) := by
  have hlenses : App.lenses app = some (app.windows.map (fun p => p.2)) := by
    unfold App.lenses
    rw [if_neg (by simpa using hw)]
  have hmon : App.monitors app [] = some [] := by
    unfold App.monitors
    rw [hlenses]
  refine ⟨?_, ?_, fun hnil => hw hnil⟩
  · intro hc
    obtain ⟨n, rfl⟩ : ∃ n, count = n + 1 :=
      ⟨count - 1, by omega⟩
    have hpick : pickMonitors [] samples (n + 1) = .panic := by
      unfold pickMonitors gen_range
      simp
    simp only [App.frames, App.random_monitors, hmon, hpick]
  · simp only [App.frames, App.random_monitors, hmon]
    rfl

/-- Witness for C2's amended statement at a concrete one-window state. -/
theorem frames_empty_monitor_list_witness :
    App.frames ⟨⟨[]⟩, [], [(1, ⟨false, 1⟩)]⟩ [] 3 (fun _ => 0)
        (fun _ => (0, 0, 0, 0)) = .panic ∧
    App.frames ⟨⟨[]⟩, [], [(1, ⟨false, 1⟩)]⟩ [] 0 (fun _ => 0)
        (fun _ => (0, 0, 0, 0)) = .ok (some []) :=
  ⟨(frames_empty_monitor_list ⟨⟨[]⟩, [], [(1, ⟨false, 1⟩)]⟩ 3 (fun _ => 0)
      (fun _ => (0, 0, 0, 0)) (by simp)).1 (by omega),
    (frames_empty_monitor_list ⟨⟨[]⟩, [], [(1, ⟨false, 1⟩)]⟩ 3 (fun _ => 0)
      (fun _ => (0, 0, 0, 0)) (by simp)).2.1⟩

end Tardy
